import Mathlib

set_option maxRecDepth 100000

/-!
Verification of the lib-forge build/packaging/release pipeline core.

This file shallowly embeds the Rust core of the repository:

* `crates/libforge-core/src/build_id/{inputs,hash}.rs` — the ABI-affecting
  `BuildInputs` model, its canonical JSON serialization and the SHA-256
  based `hash_build_inputs` / `hash_release_inputs` identity functions;
* `crates/libforge-core/src/bindings/model.rs` — the binding metadata and
  its canonical strings;
* `crates/libforge-core/src/platform/key.rs` — the platform key registry,
  its Display string and its FromStr parser;
* `crates/libforge-core/src/artifact/naming.rs` — artifact file naming;
* `crates/xforge-core/src/manifest/schema.rs` and
  `crates/libforge-core/src/manifest/{serialize,validate}.rs` — the
  manifest schema, its serde JSON serialization and its validation;
* `crates/libforge-publish/src/release.rs` — publish request validation.

Machine integers are modelled as `Nat` with explicit reduction modulo
`2 ^ 32` where the Rust code relies on 32-bit wrap-around (the SHA-256
compression function).  Strings are Lean `String`s; Rust byte strings are
`List Nat` of byte values.  Filesystem state is passed explicitly as the
list of existing paths.
-/

namespace LibForge

/-! ## SHA-256 (as used via the `sha2` crate by `hash_build_inputs`) -/

/-- 2^32, the word modulus of SHA-256. -/
def M32 : Nat := 4294967296

/-- Right rotation of a 32-bit word. -/
def rotr (n w : Nat) : Nat :=
  ((w >>> n) ||| (w <<< (32 - n))) % M32

/-- SHA-256 small sigma 0. -/
def ssig0 (w : Nat) : Nat := (rotr 7 w) ^^^ (rotr 18 w) ^^^ (w >>> 3)

/-- SHA-256 small sigma 1. -/
def ssig1 (w : Nat) : Nat := (rotr 17 w) ^^^ (rotr 19 w) ^^^ (w >>> 10)

/-- SHA-256 big sigma 0. -/
def bsig0 (w : Nat) : Nat := (rotr 2 w) ^^^ (rotr 13 w) ^^^ (rotr 22 w)

/-- SHA-256 big sigma 1. -/
def bsig1 (w : Nat) : Nat := (rotr 6 w) ^^^ (rotr 11 w) ^^^ (rotr 25 w)

/-- SHA-256 choice function. -/
def chf (e f g : Nat) : Nat := (e &&& f) ^^^ ((e ^^^ (M32 - 1)) &&& g)

/-- SHA-256 majority function. -/
def majf (a b c : Nat) : Nat := (a &&& b) ^^^ (a &&& c) ^^^ (b &&& c)

/-- The 64 SHA-256 round constants, written in decimal. -/
def sha256K : List Nat :=
  [1116352408, 1899447441, 3049323471, 3921009573, 961987163,
   1508970993, 2453635748, 2870763221, 3624381080, 310598401,
   607225278, 1426881987, 1925078388, 2162078206, 2614888103,
   3248222580, 3835390401, 4022224774, 264347078, 604807628,
   770255983, 1249150122, 1555081692, 1996064986, 2554220882,
   2821834349, 2952996808, 3210313671, 3336571891, 3584528711,
   113926993, 338241895, 666307205, 773529912, 1294757372,
   1396182291, 1695183700, 1986661051, 2177026350, 2456956037,
   2730485921, 2820302411, 3259730800, 3345764771, 3516065817,
   3600352804, 4094571909, 275423344, 430227734, 506948616,
   659060556, 883997877, 958139571, 1322822218, 1537002063,
   1747873779, 1955562222, 2024104815, 2227730452, 2361852424,
   2428436474, 2756734187, 3204031479, 3329325298]

/-- The SHA-256 initial hash state, written in decimal. -/
def sha256H0 : List Nat :=
  [1779033703, 3144134277, 1013904242, 2773480762,
   1359893119, 2600822924, 528734635, 1541459225]

/-- SHA-256 message padding: append `0x80`, zero bytes to 56 mod 64, then the
bit length as 8 big-endian bytes. -/
def sha256Pad (msg : List Nat) : List Nat :=
  let len := msg.length
  let zeros := (64 + 56 - (len + 1) % 64) % 64
  let bits := 8 * len
  msg ++ 0x80 :: List.replicate zeros 0 ++
    [bits / 2 ^ 56 % 256, bits / 2 ^ 48 % 256, bits / 2 ^ 40 % 256,
     bits / 2 ^ 32 % 256, bits / 2 ^ 24 % 256, bits / 2 ^ 16 % 256,
     bits / 2 ^ 8 % 256, bits % 256]

/-- Group padded bytes into 32-bit big-endian words. -/
def bytesToWords : List Nat → List Nat
  | a :: b :: c :: d :: rest => (((a * 256 + b) * 256 + c) * 256 + d) :: bytesToWords rest
  | _ => []

/-- Group the word stream into 16-word blocks. -/
def wordsToBlocks : List Nat → List (List Nat)
  | w0 :: w1 :: w2 :: w3 :: w4 :: w5 :: w6 :: w7 ::
    w8 :: w9 :: w10 :: w11 :: w12 :: w13 :: w14 :: w15 :: rest =>
      [w0, w1, w2, w3, w4, w5, w6, w7, w8, w9, w10, w11, w12, w13, w14, w15] ::
        wordsToBlocks rest
  | _ => []

/-- Extend the 16 block words by `n` schedule words; the accumulator holds the
schedule so far in reverse (newest word first). -/
def extendSchedule : Nat → List Nat → List Nat
  | 0, acc => acc
  | n + 1, acc =>
      let w2 := acc.getD 1 0
      let w7 := acc.getD 6 0
      let w15 := acc.getD 14 0
      let w16 := acc.getD 15 0
      extendSchedule n (((ssig1 w2 + w7 + ssig0 w15 + w16) % M32) :: acc)

/-- The 64-word message schedule of one block. -/
def schedule (block : List Nat) : List Nat :=
  (extendSchedule 48 block.reverse).reverse

/-- One SHA-256 round on the working state `[a,b,c,d,e,f,g,h]`. -/
def sha256Round (st : List Nat) (k w : Nat) : List Nat :=
  let a := st.getD 0 0
  let b := st.getD 1 0
  let c := st.getD 2 0
  let d := st.getD 3 0
  let e := st.getD 4 0
  let f := st.getD 5 0
  let g := st.getD 6 0
  let h := st.getD 7 0
  let t1 := (h + bsig1 e + chf e f g + k + w) % M32
  let t2 := (bsig0 a + majf a b c) % M32
  [(t1 + t2) % M32, a, b, c, (d + t1) % M32, e, f, g]

/-- Process one 16-word block against the running hash state. -/
def sha256Block (st block : List Nat) : List Nat :=
  let ws := schedule block
  let fin := (sha256K.zip ws).foldl (fun s kw => sha256Round s kw.1 kw.2) st
  (List.range 8).map (fun i => (st.getD i 0 + fin.getD i 0) % M32)

/-- The SHA-256 digest of a byte list, as eight 32-bit words. -/
def sha256Words (msg : List Nat) : List Nat :=
  (wordsToBlocks (bytesToWords (sha256Pad msg))).foldl sha256Block sha256H0

/-- A hex digit character for a nibble. -/
def hexDigit (n : Nat) : Char :=
  if n < 10 then Char.ofNat (48 + n) else Char.ofNat (87 + n)

/-- Lowercase hex rendering of one 32-bit word (8 nibbles). -/
def wordHex (w : Nat) : List Char :=
  [hexDigit (w / 2 ^ 28 % 16), hexDigit (w / 2 ^ 24 % 16),
   hexDigit (w / 2 ^ 20 % 16), hexDigit (w / 2 ^ 16 % 16),
   hexDigit (w / 2 ^ 12 % 16), hexDigit (w / 2 ^ 8 % 16),
   hexDigit (w / 2 ^ 4 % 16), hexDigit (w % 16)]

/-- The lowercase hex SHA-256 digest of a byte list, as `hex::encode` renders
the `sha2` digest in `hash_build_inputs`. -/
def sha256Hex (msg : List Nat) : String :=
  String.mk ((sha256Words msg).map wordHex).flatten

/-- UTF-8 encoding of one character, as byte values. -/
def charUtf8 (c : Char) : List Nat :=
  let n := c.toNat
  if n < 128 then [n]
  else if n < 2048 then [192 + n / 64, 128 + n % 64]
  else if n < 65536 then [224 + n / 4096, 128 + n / 64 % 64, 128 + n % 64]
  else [240 + n / 262144, 128 + n / 4096 % 64, 128 + n / 64 % 64, 128 + n % 64]

/-- The UTF-8 bytes of a string (`str::as_bytes` in Rust). -/
def strBytes (s : String) : List Nat :=
  (s.data.map charUtf8).flatten

/-! ## JSON values and the serde_json compact serializer

`canonical_json` in `build_id/hash.rs` builds a `serde_json::Value` from
`BTreeMap`s (whose iteration order is key-sorted) and renders it with
`serde_json::to_string`.  `Json` models the values actually built there and
`Json.render` models serde_json's compact serializer on them, including its
string escaping table. -/

inductive Json where
  | null
  | bool (b : Bool)
  | str (s : String)
  | arr (items : List Json)
  | obj (entries : List (String × Json))

/-- serde_json's escaping of one character inside a JSON string: quote and
backslash are escaped, control characters use the two-character short escapes
where they exist and lowercase `\u00XX` otherwise. -/
def escapeChar (c : Char) : List Char :=
  if c = '"' then ['\\', '"']
  else if c = '\\' then ['\\', '\\']
  else if c.toNat = 8 then ['\\', 'b']
  else if c.toNat = 9 then ['\\', 't']
  else if c.toNat = 10 then ['\\', 'n']
  else if c.toNat = 12 then ['\\', 'f']
  else if c.toNat = 13 then ['\\', 'r']
  else if c.toNat < 32 then
    ['\\', 'u', '0', '0', hexDigit (c.toNat / 16), hexDigit (c.toNat % 16)]
  else [c]

/-- A JSON string literal: quotes around the escaped characters. -/
def quoteJson (s : String) : String :=
  String.mk ('"' :: (s.data.map escapeChar).flatten ++ ['"'])

/-- Join rendered pieces with commas (`serde_json` compact form). -/
def joinSep (sep : String) : List String → String
  | [] => ""
  | [x] => x
  | x :: rest => x ++ sep ++ joinSep sep rest

/-- serde_json's compact rendering.  The `fuel` argument bounds the nesting
depth so the recursion is structural; every value built by `canonical_json`
has depth 3, so the fuel is never exhausted where this is applied. -/
def Json.renderFuel : Nat → Json → String
  | 0, _ => ""
  | _ + 1, .null => "null"
  | _ + 1, .bool true => "true"
  | _ + 1, .bool false => "false"
  | _ + 1, .str s => quoteJson s
  | fuel + 1, .arr items =>
      "[" ++ joinSep "," (items.map (Json.renderFuel fuel)) ++ "]"
  | fuel + 1, .obj entries =>
      "\x7b" ++
        joinSep ","
          (entries.map fun kv => quoteJson kv.1 ++ ":" ++ Json.renderFuel fuel kv.2) ++
      "\x7d"

/-- serde_json compact rendering at ample depth. -/
def Json.render (j : Json) : String := Json.renderFuel 8 j

/-! ## Binding metadata (`bindings/model.rs`) -/

/-- Rust `char::is_whitespace` (the Unicode White_Space property), as used by
`str::trim` in the binding canonical strings. -/
def isRustWhitespace (c : Char) : Bool :=
  [9, 10, 11, 12, 13, 32, 133, 160, 5760,
   8192, 8193, 8194, 8195, 8196, 8197, 8198, 8199, 8200, 8201, 8202,
   8232, 8233, 8239, 8287, 12288].contains c.toNat

/-- Rust `str::trim`: strip leading and trailing whitespace. -/
def rustTrim (s : String) : String :=
  String.mk (((s.data.dropWhile isRustWhitespace).reverse.dropWhile
    isRustWhitespace).reverse)

/-- Byte-lexicographic order on strings; on UTF-8 this equals code-point
order, which is how Rust's `Ord for String` compares (used by `Vec::sort`). -/
def charListLe : List Char → List Char → Bool
  | [], _ => true
  | _ :: _, [] => false
  | a :: as, b :: bs =>
      if a.toNat < b.toNat then true
      else if b.toNat < a.toNat then false
      else charListLe as bs

/-- `a <= b` in Rust's string order. -/
def strLe (a b : String) : Bool := charListLe a.data b.data

/-- Insertion of one element into a sorted list (helper of the sort below). -/
def insertLe {α : Type} (le : α → α → Bool) (x : α) : List α → List α
  | [] => [x]
  | y :: ys => if le x y then x :: y :: ys else y :: insertLe le x ys

/-- A structural sort modelling Rust's `Vec::sort` (both produce the ordered
rearrangement; the lists sorted in this development never carry distinct
elements that compare equal, so stability is immaterial). -/
def sortBy {α : Type} (le : α → α → Bool) : List α → List α
  | [] => []
  | x :: xs => insertLe le x (sortBy le xs)

structure SwiftBinding where
  toolchain : String
  deployment_target : String
deriving DecidableEq

def SwiftBinding.canonical_string (b : SwiftBinding) : String :=
  "swift:toolchain=" ++ rustTrim b.toolchain ++
    ";deployment_target=" ++ rustTrim b.deployment_target

structure KotlinBinding where
  min_sdk : Nat
  jvm_target : String
  ndk_abis : List String
deriving DecidableEq

def KotlinBinding.canonical_string (b : KotlinBinding) : String :=
  "kotlin:min_sdk=" ++ toString b.min_sdk ++
    ";jvm_target=" ++ rustTrim b.jvm_target ++
    ";ndk_abis=" ++ joinSep "," (sortBy strLe (b.ndk_abis.map rustTrim))

structure PythonBinding where
  abi_tag : String
  platform_tag : String
deriving DecidableEq

def PythonBinding.canonical_string (b : PythonBinding) : String :=
  "python:abi_tag=" ++ rustTrim b.abi_tag ++
    ";platform_tag=" ++ rustTrim b.platform_tag

structure DartBinding where
  sdk_constraint : String
  ffi_abi : String
deriving DecidableEq

def DartBinding.canonical_string (b : DartBinding) : String :=
  "dart:sdk_constraint=" ++ rustTrim b.sdk_constraint ++
    ";ffi_abi=" ++ rustTrim b.ffi_abi

inductive BindingMetadata where
  | swift (b : SwiftBinding)
  | kotlin (b : KotlinBinding)
  | python (b : PythonBinding)
  | dart (b : DartBinding)
deriving DecidableEq

def BindingMetadata.canonical_string : BindingMetadata → String
  | .swift b => b.canonical_string
  | .kotlin b => b.canonical_string
  | .python b => b.canonical_string
  | .dart b => b.canonical_string

structure BindingMetadataSet where
  bindings : List BindingMetadata
deriving DecidableEq

def BindingMetadataSet.canonical_string (s : BindingMetadataSet) : String :=
  joinSep "|" (sortBy strLe (s.bindings.map BindingMetadata.canonical_string))

/-! ## Build inputs (`build_id/inputs.rs`)

The Rust `AbiInput<T>` wrapper holds only a `value : T` (plus the constant
`AFFECTS_ABI = true`), and `NormalizedCargoToml`, `CargoLockfile`,
`NormalizedUdl` and `NormalizedLibforgeConfig` are newtypes over `String`;
both are flattened here. -/

structure UniFfiInput where
  udl : Option String
deriving DecidableEq

structure BuildInputs where
  cargo_toml : String
  cargo_lock : String
  rust_target_triple : String
  uniffi : Option UniFfiInput
  libforge_yaml : Option String
  binding_metadata : BindingMetadataSet
  manifest_schema_version : String
deriving DecidableEq

inductive BuildInputValue where
  | present (value : String)
  | absent
deriving DecidableEq

structure BuildInputField where
  name : String
  value : BuildInputValue
  affects_abi : Bool
deriving DecidableEq

/-- `BuildInputs::fields`: every ABI-affecting field with explicit presence,
in declaration order. -/
def BuildInputs.fields (x : BuildInputs) : List BuildInputField :=
  [⟨"cargo.toml", .present x.cargo_toml, true⟩,
   ⟨"cargo.lock", .present x.cargo_lock, true⟩,
   ⟨"rust.target_triple", .present x.rust_target_triple, true⟩,
   ⟨"uniffi.udl",
     (match x.uniffi with
      | some u =>
          match u.udl with
          | some v => .present v
          | none => .absent
      | none => .absent), true⟩,
   ⟨"libforge.yaml",
     (match x.libforge_yaml with
      | some v => .present v
      | none => .absent), true⟩,
   ⟨"binding.metadata", .present x.binding_metadata.canonical_string, true⟩,
   ⟨"manifest.schema_version", .present x.manifest_schema_version, true⟩]

/-! ## Canonical JSON and hashing (`build_id/hash.rs`) -/

/-- The field list sorted by name, as `canonical_json` sorts it. -/
def sortedFields (x : BuildInputs) : List BuildInputField :=
  sortBy (fun l r => strLe l.name r.name) x.fields

/-- One field as the JSON object `canonical_json` builds for it; the
`BTreeMap` iterates its keys sorted (`affects_abi`, `name`, `value`). -/
def fieldJson (f : BuildInputField) : Json :=
  .obj [("affects_abi", .bool f.affects_abi),
        ("name", .str f.name),
        ("value",
          match f.value with
          | .present v => .str v
          | .absent => .null)]

/-- The JSON value `canonical_json` serializes: a root object with keys
`inputs` and `version` (in `BTreeMap` order). -/
def canonicalJsonValue (x : BuildInputs) : Json :=
  .obj [("inputs", .arr ((sortedFields x).map fieldJson)),
        ("version", .str "b1")]

/-- `canonical_json`.  `serde_json::to_string` cannot fail on the values
built here (string-keyed maps of scalars), so the `serde_json::Result` is
modelled as the string itself. -/
def canonical_json (x : BuildInputs) : String :=
  (canonicalJsonValue x).render

/-- `hash_build_inputs`: the version tag joined with the lowercase hex
SHA-256 of the canonical JSON bytes. -/
def hash_build_inputs (x : BuildInputs) : String :=
  "b1-" ++ sha256Hex (strBytes (canonical_json x))

/-- The `sample_inputs` fixture of `build_id/hash.rs`. -/
def sample_inputs : BuildInputs where
  cargo_toml := "[package]\nname = \"demo\"\nversion = \"0.1.0\"\n"
  cargo_lock := "version = 3\n[[package]]\nname = \"demo\"\nversion = \"0.1.0\"\n"
  rust_target_triple := "aarch64-apple-darwin"
  uniffi := some ⟨some "namespace demo; interface Demo \x7b string ping(); \x7d;"⟩
  libforge_yaml := some (String.join
    ["build:\n  targets:\n    - linux\n",
     "precompiled_binaries:\n",
     "  url_prefix: https://github.com/stax/lib-forge/releases/download/precompiled_\n",
     "  public_key: demo-public-key\n"])
  binding_metadata := ⟨[
    .dart ⟨"3.0", "1"⟩,
    .kotlin ⟨21, "1.8", ["arm64-v8a", "x86_64"]⟩,
    .python ⟨"cp311", "manylinux_2_28"⟩,
    .swift ⟨"5.9", "13.0"⟩]⟩
  manifest_schema_version := "libforge.manifest.v1"

/-! ## Platform keys (`platform/key.rs`)

Only the descriptor fields the verified operations read are embedded:
the key and its canonical string.  (The registry's family/os/architecture,
rust target, packaging and binding columns are not consulted by
`artifact_name`, `Display`, or `FromStr`.) -/

inductive PlatformKey where
  | LinuxX86_64
  | LinuxAarch64
  | MacosArm64
  | MacosX86_64
  | MacosUniversal
  | IosArm64
  | IosSimulator
  | AndroidArm64
  | AndroidArmv7
  | AndroidX86_64
  | WindowsX86_64Msvc
  | WindowsArm64Msvc
deriving DecidableEq

structure PlatformDescriptor where
  key : PlatformKey
  key_str : String
deriving DecidableEq

/-- `PLATFORM_REGISTRY`, in source order. -/
def registry : List PlatformDescriptor :=
  [⟨.LinuxX86_64, "linux-x86_64"⟩,
   ⟨.LinuxAarch64, "linux-aarch64"⟩,
   ⟨.MacosArm64, "macos-arm64"⟩,
   ⟨.MacosX86_64, "macos-x86_64"⟩,
   ⟨.MacosUniversal, "macos-universal"⟩,
   ⟨.IosArm64, "ios-arm64"⟩,
   ⟨.IosSimulator, "ios-simulator"⟩,
   ⟨.AndroidArm64, "android-arm64"⟩,
   ⟨.AndroidArmv7, "android-armv7"⟩,
   ⟨.AndroidX86_64, "android-x86_64"⟩,
   ⟨.WindowsX86_64Msvc, "windows-x86_64-msvc"⟩,
   ⟨.WindowsArm64Msvc, "windows-arm64-msvc"⟩]

/-- `PlatformKey::as_str` via `descriptor()`: the registry entry for the key.
`descriptor()` panics when the key is missing from the registry; the lookup
provably succeeds for all twelve keys, the `getD` default is never taken. -/
def PlatformKey.as_str (k : PlatformKey) : String :=
  ((registry.find? fun entry => entry.key = k).map PlatformDescriptor.key_str).getD ""

inductive PlatformKeyError where
  | InvalidFormat
  | UnknownKey (value : String)
deriving DecidableEq

/-- `is_valid_platform_key_format`: must contain `-` and hold only lowercase
ASCII letters, ASCII digits, `-` or `_`. -/
def is_valid_platform_key_format (value : String) : Bool :=
  value.data.contains '-' &&
    value.data.all fun ch => ch.isLower || ch.isDigit || ch = '-' || ch = '_'

/-- `FromStr for PlatformKey`: format check, then registry lookup by the
canonical string. -/
def PlatformKey.from_str (value : String) : Except PlatformKeyError PlatformKey :=
  if ¬ is_valid_platform_key_format value then .error .InvalidFormat
  else
    match registry.find? fun entry => entry.key_str = value with
    | some entry => .ok entry.key
    | none => .error (.UnknownKey value)

/-! ## Artifact naming (`artifact/naming.rs`) -/

inductive ArchiveKind where
  | TarGz
  | Zip
deriving DecidableEq

def ArchiveKind.extension : ArchiveKind → String
  | .TarGz => "tar.gz"
  | .Zip => "zip"

inductive ArtifactNameError where
  | InvalidComponent (field : String) (value : String)
  | InvalidBuildId (value : String)
deriving DecidableEq

/-- `is_canonical_component` on the character list: lowercase ASCII,
ASCII digits and `-` only. -/
def isCanonicalComponentChars (l : List Char) : Bool :=
  l.all fun ch => ch.isLower || ch.isDigit || ch = '-'

def is_canonical_component (value : String) : Bool :=
  isCanonicalComponentChars value.data

def validate_component (field value : String) : Except ArtifactNameError Unit :=
  if value = "" ∨ is_canonical_component value = false then
    .error (.InvalidComponent field value)
  else .ok ()

/-- The digit-scanning loop of `is_versioned_build_id`: consume ASCII digits
counting them, stop at the first `-` returning the count and the remainder,
fail on any other character or on running out of input before a `-`. -/
def scanDigits : List Char → Nat → Option (Nat × List Char)
  | [], _ => none
  | c :: rest, count =>
      if c.isDigit then scanDigits rest (count + 1)
      else if c = '-' then some (count, rest)
      else none

/-- `is_versioned_build_id` on the character list: a leading `b`, the digit
scan up to a `-`, at least one digit, and a non-empty canonical-component
remainder. -/
def versionedChars : List Char → Bool
  | [] => false
  | c :: rest =>
      if c = 'b' then
        match scanDigits rest 0 with
        | some (count, remainder) =>
            decide (count ≠ 0) && decide (remainder ≠ []) &&
              isCanonicalComponentChars remainder
        | none => false
      else false

def is_versioned_build_id (value : String) : Bool :=
  versionedChars value.data

def validate_build_id (value : String) : Except ArtifactNameError Unit :=
  if is_versioned_build_id value then .ok ()
  else .error (.InvalidBuildId value)

/-- `artifact_name`: component checks, build-id check, then
`<package>-<build_id>-<platform Display>.<ext>`. -/
def artifact_name (lib_name build_id : String) (platform_key : PlatformKey)
    (archive : ArchiveKind) : Except ArtifactNameError String := do
  validate_component "package" lib_name
  validate_component "build_id" build_id
  validate_build_id build_id
  pure (lib_name ++ "-" ++ build_id ++ "-" ++ platform_key.as_str ++ "." ++
    archive.extension)

/-- Whether a character list begins with the `b<digits>-` version tag of the
spec: a `b`, one or more ASCII digits, then `-`. -/
def tagChars : List Char → Bool
  | [] => false
  | c :: rest =>
      if c = 'b' then
        decide ((rest.takeWhile Char.isDigit).length ≥ 1) &&
          (match rest.dropWhile Char.isDigit with
           | '-' :: _ => true
           | _ => false)
      else false

/-- Whether a string begins with the `b<digits>-` version tag. -/
def hasVersionTag (value : String) : Bool :=
  tagChars value.data

/-! ## Manifest schema (`xforge-core/src/manifest/schema.rs`)

This is the manifest shape the serializer and validator compile against:
the `libforge-core` copy of `schema.rs` in the sources is stale — its own
`manifest/mod.rs` re-exports `Signing` and its `serialize.rs` and
`validate.rs` use `manifest.signing` and `Platform::build_id`, which only
the `xforge-core` schema declares. -/

structure Package where
  name : String
  version : String
  description : Option String
  license : Option String
  authors : List String
  repository : Option String
deriving DecidableEq

structure BuildIdentity where
  host : String
  toolchain : String
  profile : Option String
  features : List String
deriving DecidableEq

structure Build where
  id : String
  identity : BuildIdentity
  timestamp : Option String
  engine : Option String
deriving DecidableEq

structure ArtifactNaming where
  template : String
  delimiter : String
  include_platform : Bool
  include_binding : Bool
deriving DecidableEq

structure Artifacts where
  naming : ArtifactNaming
deriving DecidableEq

structure BindingDescriptor where
  name : String
  version : String
  platforms : List String
  artifacts : List String
deriving DecidableEq

structure Platform where
  name : String
  build_id : String
  triples : List String
  bindings : List String
  artifacts : List String
  description : Option String
deriving DecidableEq

structure Platforms where
  default : String
  targets : List Platform
deriving DecidableEq

structure Bindings where
  catalog : List BindingDescriptor
  primary : Option String
deriving DecidableEq

structure Signing where
  algorithm : String
  public_key : String
  signature : String
deriving DecidableEq

structure Manifest where
  schema_version : String
  package : Package
  build : Build
  artifacts : Artifacts
  bindings : Bindings
  platforms : Platforms
  signing : Option Signing
deriving DecidableEq

/-! ## Manifest serialization (`manifest/serialize.rs`)

serde's derived `Serialize` writes struct fields in declaration order with
camelCase names; an `Option` field without a `skip_serializing_if`
attribute (none carries one in this schema) serializes `None` as `null`. -/

/-- serde's rendering of an `Option<String>` field. -/
def optStr : Option String → Json
  | some s => .str s
  | none => .null

def bindingDescriptorJson (b : BindingDescriptor) : Json :=
  .obj [("name", .str b.name),
        ("version", .str b.version),
        ("platforms", .arr (b.platforms.map .str)),
        ("artifacts", .arr (b.artifacts.map .str))]

def platformJson (p : Platform) : Json :=
  .obj [("name", .str p.name),
        ("buildId", .str p.build_id),
        ("triples", .arr (p.triples.map .str)),
        ("bindings", .arr (p.bindings.map .str)),
        ("artifacts", .arr (p.artifacts.map .str)),
        ("description", optStr p.description)]

def manifestJsonValue (m : Manifest) : Json :=
  .obj
    [("schemaVersion", .str m.schema_version),
     ("package", .obj
       [("name", .str m.package.name),
        ("version", .str m.package.version),
        ("description", optStr m.package.description),
        ("license", optStr m.package.license),
        ("authors", .arr (m.package.authors.map .str)),
        ("repository", optStr m.package.repository)]),
     ("build", .obj
       [("id", .str m.build.id),
        ("identity", .obj
          [("host", .str m.build.identity.host),
           ("toolchain", .str m.build.identity.toolchain),
           ("profile", optStr m.build.identity.profile),
           ("features", .arr (m.build.identity.features.map .str))]),
        ("timestamp", optStr m.build.timestamp),
        ("engine", optStr m.build.engine)]),
     ("artifacts", .obj
       [("naming", .obj
         [("template", .str m.artifacts.naming.template),
          ("delimiter", .str m.artifacts.naming.delimiter),
          ("includePlatform", .bool m.artifacts.naming.include_platform),
          ("includeBinding", .bool m.artifacts.naming.include_binding)])]),
     ("bindings", .obj
       [("catalog", .arr (m.bindings.catalog.map bindingDescriptorJson)),
        ("primary", optStr m.bindings.primary)]),
     ("platforms", .obj
       [("default", .str m.platforms.default),
        ("targets", .arr (m.platforms.targets.map platformJson))]),
     ("signing",
       match m.signing with
       | some s => .obj
           [("algorithm", .str s.algorithm),
            ("publicKey", .str s.public_key),
            ("signature", .str s.signature)]
       | none => .null)]

/-- `serialize_manifest` (`serde_json::to_string`). -/
def serialize_manifest (m : Manifest) : String :=
  (manifestJsonValue m).render

/-- One level of 2-space indentation per depth (serde_json `PrettyFormatter`). -/
def indentStr (depth : Nat) : String :=
  String.mk (List.replicate (2 * depth) ' ')

/-- serde_json's indented rendering (`to_string_pretty`): members one per
line at 2-space indentation, `": "` after keys, empty containers inline.
`fuel` bounds the nesting depth as in `Json.renderFuel`. -/
def Json.renderPrettyFuel : Nat → Nat → Json → String
  | 0, _, _ => ""
  | _ + 1, _, .null => "null"
  | _ + 1, _, .bool true => "true"
  | _ + 1, _, .bool false => "false"
  | _ + 1, _, .str s => quoteJson s
  | _ + 1, _, .arr [] => "[]"
  | fuel + 1, depth, .arr items =>
      "[\n" ++
        joinSep ",\n"
          (items.map fun j =>
            indentStr (depth + 1) ++ Json.renderPrettyFuel fuel (depth + 1) j) ++
      "\n" ++ indentStr depth ++ "]"
  | _ + 1, _, .obj [] => "\x7b\x7d"
  | fuel + 1, depth, .obj entries =>
      "\x7b\n" ++
        joinSep ",\n"
          (entries.map fun kv =>
            indentStr (depth + 1) ++ quoteJson kv.1 ++ ": " ++
              Json.renderPrettyFuel fuel (depth + 1) kv.2) ++
      "\n" ++ indentStr depth ++ "\x7d"

/-- `serialize_manifest_pretty` (`serde_json::to_string_pretty`). -/
def serialize_manifest_pretty (m : Manifest) : String :=
  Json.renderPrettyFuel 8 0 (manifestJsonValue m)

/-! ## Manifest validation (`manifest/validate.rs`) -/

inductive ManifestError where
  | InvalidPlatformKey (platform : String)
  | InvalidDefaultPlatform (platform : String)
  | UnknownBindingPlatform (binding : String) (platform : String)
  | BindingVersionMissing (binding : String)
  | DuplicateArtifactIdentifier (identifier : String)
  | ArtifactMissingPlatform (binding : String) (artifact : String)
  | ArtifactPlatformMismatch (binding : String) (artifact : String) (platform : String)
  | AbiFieldMissing (field : String)
  | EmptyArtifactIdentifier (platform : String)
  | MissingPlatformBuildId (platform : String)
deriving DecidableEq

/-- The first `for` loop of `validate`: per-target platform-key parse and
build-id presence, first failure wins. -/
def checkTargets : List Platform → Option ManifestError
  | [] => none
  | p :: rest =>
      match PlatformKey.from_str p.name with
      | .error _ => some (.InvalidPlatformKey p.name)
      | .ok _ =>
          if rustTrim p.build_id = "" then some (.MissingPlatformBuildId p.name)
          else checkTargets rest

/-- The per-target non-empty `triples` loop of `validate`. -/
def checkTriples : List Platform → Option ManifestError
  | [] => none
  | p :: rest =>
      if p.triples = [] then
        some (.AbiFieldMissing ("platforms.targets[" ++ p.name ++ "].triples"))
      else checkTriples rest

/-- Lookup in the `artifact -> platform` map (`HashMap::get`; keys are unique
by construction so an association list is an exact model). -/
def lookupAssoc (key : String) : List (String × String) → Option String
  | [] => none
  | kv :: rest => if kv.1 = key then some kv.2 else lookupAssoc key rest

/-- The inner artifact loop of the uniqueness check: empty identifiers and
duplicate insertions fail, otherwise the map grows. -/
def insertArtifacts (platformName : String) :
    List String → List (String × String) →
      Except ManifestError (List (String × String))
  | [], acc => .ok acc
  | a :: rest, acc =>
      if rustTrim a = "" then .error (.EmptyArtifactIdentifier platformName)
      else
        match lookupAssoc a acc with
        | some _ => .error (.DuplicateArtifactIdentifier a)
        | none => insertArtifacts platformName rest (acc ++ [(a, platformName)])

/-- The outer platform loop of the uniqueness check. -/
def collectArtifacts :
    List Platform → List (String × String) →
      Except ManifestError (List (String × String))
  | [], acc => .ok acc
  | p :: rest, acc =>
      match insertArtifacts p.name p.artifacts acc with
      | .error e => .error e
      | .ok acc2 => collectArtifacts rest acc2

/-- The per-binding platform existence loop. -/
def checkBindingPlatforms (bindingName : String) (names : List String) :
    List String → Option ManifestError
  | [] => none
  | p :: rest =>
      if p ∉ names then some (.UnknownBindingPlatform bindingName p)
      else checkBindingPlatforms bindingName names rest

/-- The per-binding artifact reference loop. -/
def checkBindingArtifacts (bindingName : String) (bindingPlatforms : List String)
    (artifactPlatforms : List (String × String)) :
    List String → Option ManifestError
  | [] => none
  | a :: rest =>
      match lookupAssoc a artifactPlatforms with
      | none => some (.ArtifactMissingPlatform bindingName a)
      | some plat =>
          if bindingPlatforms ≠ [] ∧ plat ∉ bindingPlatforms then
            some (.ArtifactPlatformMismatch bindingName a plat)
          else checkBindingArtifacts bindingName bindingPlatforms artifactPlatforms rest

/-- The `bindings.catalog` loop of `validate`. -/
def checkBindings (names : List String) (artifactPlatforms : List (String × String)) :
    List BindingDescriptor → Option ManifestError
  | [] => none
  | b :: rest =>
      if rustTrim b.version = "" then some (.BindingVersionMissing b.name)
      else
        match checkBindingPlatforms b.name names b.platforms with
        | some e => some e
        | none =>
            match checkBindingArtifacts b.name b.platforms artifactPlatforms b.artifacts with
            | some e => some e
            | none => checkBindings names artifactPlatforms rest

/-- `validate`: the checks of `manifest/validate.rs` in source order,
returning the first failure. -/
def validate (m : Manifest) : Except ManifestError Unit :=
  match checkTargets m.platforms.targets with
  | some e => .error e
  | none =>
      match PlatformKey.from_str m.platforms.default with
      | .error _ => .error (.InvalidPlatformKey m.platforms.default)
      | .ok _ =>
          if m.platforms.default ∉ m.platforms.targets.map Platform.name then
            .error (.InvalidDefaultPlatform m.platforms.default)
          else if (match m.build.identity.profile with
                   | some v => decide (rustTrim v = "")
                   | none => true) then
            .error (.AbiFieldMissing "build.identity.profile")
          else
            match checkTriples m.platforms.targets with
            | some e => .error e
            | none =>
                match collectArtifacts m.platforms.targets [] with
                | .error e => .error e
                | .ok artifactPlatforms =>
                    match checkBindings (m.platforms.targets.map Platform.name)
                        artifactPlatforms m.bindings.catalog with
                    | some e => .error e
                    | none => .ok ()

/-! ## String containment (Rust `str::contains` / `str::ends_with`) -/

/-- `isPrefOf needle hay`: the needle's characters head the haystack. -/
def isPrefOf : List Char → List Char → Bool
  | [], _ => true
  | _ :: _, [] => false
  | a :: as, b :: bs => a = b && isPrefOf as bs

/-- `containsSub needle hay`: the needle occurs contiguously in the haystack. -/
def containsSub (needle : List Char) : List Char → Bool
  | [] => isPrefOf needle []
  | c :: rest => isPrefOf needle (c :: rest) || containsSub needle rest

/-- Rust `str::contains` for a string pattern. -/
def strContains (hay needle : String) : Bool :=
  containsSub needle.data hay.data

/-- Rust `str::ends_with` for a string pattern. -/
def strEndsWith (hay pat : String) : Bool :=
  isPrefOf pat.data.reverse hay.data.reverse

/-! ## Release publication (`libforge-publish/src/release.rs`)

Filesystem state is passed explicitly: `fs` is the list of paths for which
`Path::exists` returns true; a `Publisher` is its `publish` method. -/

structure ReleaseAsset where
  path : String
  name : String
  content_type : String
deriving DecidableEq

structure PublishRequest where
  repository : String
  tag : String
  name : String
  body : String
  build_id : String
  manifest_path : String
  assets : List ReleaseAsset
deriving DecidableEq

structure PublishOutcome where
  uploaded : List String
  skipped : List String
  release_url : Option String
deriving DecidableEq

inductive PublishError where
  | InvalidRequest (message : String)
  | Io (message : String)
  | Backend (message : String)
deriving DecidableEq

/-- `requires_build_id_in_name`: everything except the manifest, the build-id
file and detached signatures. -/
def requires_build_id_in_name (name : String) : Bool :=
  if name = "libforge-manifest.json" then false
  else if name = "build_id.txt" then false
  else if strEndsWith name ".sig" then false
  else true

/-- The per-asset loop of `validate_request`: existence, then the
build-id-in-name rule, first failure wins. -/
def checkAssets (fs : List String) (build_id : String) :
    List ReleaseAsset → Except PublishError Unit
  | [] => .ok ()
  | a :: rest =>
      if a.path ∉ fs then
        .error (.InvalidRequest ("asset '" ++ a.path ++ "' does not exist"))
      else if requires_build_id_in_name a.name && !strContains a.name build_id then
        .error (.InvalidRequest ("asset '" ++ a.name ++
          "' does not include build_id '" ++ build_id ++ "'"))
      else checkAssets fs build_id rest

/-- `validate_request`. -/
def validate_request (fs : List String) (request : PublishRequest) :
    Except PublishError Unit :=
  if rustTrim request.repository = "" then
    .error (.InvalidRequest "repository is required")
  else if rustTrim request.tag = "" then
    .error (.InvalidRequest "tag is required")
  else if rustTrim request.build_id = "" then
    .error (.InvalidRequest "build_id is required")
  else if request.manifest_path ∉ fs then
    .error (.InvalidRequest ("manifest path '" ++ request.manifest_path ++
      "' does not exist"))
  else checkAssets fs request.build_id request.assets

/-- `publish_release`: validate, then delegate to the backend publisher. -/
def publish_release (publisher : PublishRequest → Except PublishError PublishOutcome)
    (fs : List String) (request : PublishRequest) :
    Except PublishError PublishOutcome :=
  match validate_request fs request with
  | .error e => .error e
  | .ok _ => publisher request

/-! ## Release identity (`build_id/mod.rs` re-export)

`build_id/mod.rs` re-exports `canonical_json_without_target` and
`hash_release_inputs` from `build_id/hash.rs` and the CLI calls them, but
their bodies are not among the provided sources. -/

/-- Modelled from the spec: `fields_without_target(inputs)` returns the same
list as `fields` but with `rust.target_triple` forced to Absent (§4.2 of the
specification; the body is missing from the provided `build_id/hash.rs`). -/
def fields_without_target (x : BuildInputs) : List BuildInputField :=
  x.fields.map fun f =>
    if f.name = "rust.target_triple" then ⟨f.name, .absent, f.affects_abi⟩ else f

/-- Modelled from the spec: the canonical JSON over `fields_without_target`,
built exactly as `canonical_json` builds it over `fields`. -/
def canonical_json_without_target (x : BuildInputs) : String :=
  (Json.obj
    [("inputs", .arr ((sortBy (fun l r => strLe l.name r.name)
        (fields_without_target x)).map fieldJson)),
     ("version", .str "b1")]).render

/-- Modelled from the spec: `hash_release_inputs` is the target-agnostic
variant of `hash_build_inputs` — SHA-256 over the canonical JSON without the
target triple, joined with the version tag. -/
def hash_release_inputs (x : BuildInputs) : String :=
  "b1-" ++ sha256Hex (strBytes (canonical_json_without_target x))

/-! ## Whitespace-insensitivity of binding canonical strings (for the
trim behaviour of `bindings/model.rs`) -/

/-- Two strings that differ only by leading/trailing whitespace: equal after
Rust `trim`. -/
def wsEquivStr (a b : String) : Bool :=
  decide (rustTrim a = rustTrim b)

/-- Pointwise `wsEquivStr` on same-length lists. -/
def wsEquivList : List String → List String → Bool
  | [], [] => true
  | a :: as, b :: bs => wsEquivStr a b && wsEquivList as bs
  | _, _ => false

/-- Two binding metadata of the same language whose string fields differ only
by leading/trailing whitespace (and whose numeric fields are equal). -/
def wsEquivBinding : BindingMetadata → BindingMetadata → Bool
  | .swift a, .swift b =>
      wsEquivStr a.toolchain b.toolchain &&
        wsEquivStr a.deployment_target b.deployment_target
  | .kotlin a, .kotlin b =>
      decide (a.min_sdk = b.min_sdk) && wsEquivStr a.jvm_target b.jvm_target &&
        wsEquivList a.ndk_abis b.ndk_abis
  | .python a, .python b =>
      wsEquivStr a.abi_tag b.abi_tag && wsEquivStr a.platform_tag b.platform_tag
  | .dart a, .dart b =>
      wsEquivStr a.sdk_constraint b.sdk_constraint &&
        wsEquivStr a.ffi_abi b.ffi_abi
  | _, _ => false

/-- Pointwise `wsEquivBinding` on same-length binding lists. -/
def wsEquivBindings : List BindingMetadata → List BindingMetadata → Bool
  | [], [] => true
  | a :: as, b :: bs => wsEquivBinding a b && wsEquivBindings as bs
  | _, _ => false

/-- A small unsigned manifest used as the concrete serialization input. -/
def sample_manifest : Manifest where
  schema_version := "libforge.manifest.v1"
  package := ⟨"demo", "0.1.0", none, none, [], none⟩
  build := ⟨"b1-demo", ⟨"linux", "rustc 1.78.0", some "release", []⟩, none, none⟩
  artifacts := ⟨⟨"pkg-platform", "-", true, true⟩⟩
  bindings := ⟨[], none⟩
  platforms := ⟨"linux-x86_64",
    [⟨"linux-x86_64", "b1-demo", ["x86_64-unknown-linux-gnu"], [], [], none⟩]⟩
  signing := none

end LibForge

/-- Sanity check of the SHA-256 embedding against the FIPS 180-2 "abc" vector. -/
example :
    LibForge.sha256Hex (LibForge.strBytes "abc") =
      "ba7816bf8f01cfea414140de5dae2223b00361a396177a9cb410ff61f20015ad" := by
  decide

/-- Dev check: the canonical JSON of the sample has the golden length. -/
example : (LibForge.canonical_json LibForge.sample_inputs).length = 975 := by
  decide

namespace LibForge

/-- C1: for the literal BuildInputs of end-to-end scenario 1 (the
`sample_inputs` fixture of `build_id/hash.rs`: the demo cargo.toml and
cargo.lock, target triple aarch64-apple-darwin, the demo UDL, the sample
libforge.yaml, the Dart/Kotlin/Python/Swift binding set and schema version
`libforge.manifest.v1`), `hash_build_inputs` returns exactly
`b1-27990a950e05e88ae9e3b83c40f4af8a9fa0a83a07489b808d83ab4b0082f558`. -/
theorem hash_build_inputs_golden :
    hash_build_inputs sample_inputs =
      "b1-27990a950e05e88ae9e3b83c40f4af8a9fa0a83a07489b808d83ab4b0082f558" := by
  decide

/-- C2: `hash_release_inputs` hashes the canonical JSON produced with the
`rust.target_triple` field forced to Absent, so two BuildInputs that differ
only in their target triple have byte-identical release identifiers. -/
theorem hash_release_inputs_target_agnostic (x : BuildInputs) (t : String) :
    hash_release_inputs x =
        "b1-" ++ sha256Hex (strBytes (canonical_json_without_target x)) ∧
      hash_release_inputs { x with rust_target_triple := t } =
        hash_release_inputs x := by
  exact ⟨rfl, rfl⟩

/-- C3 (behaviour at the claimed input): `artifact_name("libname",
"b1-abc123", LinuxX86_64, TarGz)` formats the platform component with
`Display for PlatformKey`, which is the registry `key_str`
`"linux-x86_64"` — not the rust triple `"x86_64-unknown-linux-gnu"` that the
claim, the specification's scenario 2 and the crate's own
`artifact_name_is_deterministic` test expect. -/
theorem artifact_name_linux_sample_uses_key_str :
    artifact_name "libname" "b1-abc123" PlatformKey.LinuxX86_64 ArchiveKind.TarGz =
        .ok "libname-b1-abc123-linux-x86_64.tar.gz" ∧
      PlatformKey.as_str PlatformKey.LinuxX86_64 = "linux-x86_64" := by
  exact ⟨rfl, rfl⟩

/-- C9: every one of the twelve registry platform keys survives the
round-trip through its canonical string: `from_str (as_str k) = Ok k`. -/
theorem platform_key_round_trip (k : PlatformKey) :
    PlatformKey.from_str (PlatformKey.as_str k) = .ok k := by
  cases k <;> rfl

end LibForge

namespace LibForge

/-- The digit scan, when it succeeds, has consumed exactly the leading digits
and stopped at a `-`. -/
theorem scanDigits_spec (l : List Char) :
    ∀ (c k : Nat) (rem : List Char), scanDigits l c = some (k, rem) →
      l.dropWhile Char.isDigit = '-' :: rem ∧
        k = c + (l.takeWhile Char.isDigit).length := by
  induction l with
  | nil => intro c k rem h; simp [scanDigits] at h
  | cons ch t ih =>
      intro c k rem h
      by_cases hd : ch.isDigit
      · rw [scanDigits, if_pos hd] at h
        obtain ⟨h1, h2⟩ := ih (c + 1) k rem h
        simp only [List.dropWhile_cons, List.takeWhile_cons, hd, if_true,
          List.length_cons]
        exact ⟨h1, by omega⟩
      · by_cases he : ch = '-'
        · subst he
          rw [scanDigits, if_neg hd, if_pos rfl] at h
          obtain ⟨hk, hrem⟩ := Prod.mk.injEq .. ▸ Option.some.inj h
          subst hk; subst hrem
          have hdw : Char.isDigit '-' = false := by decide
          simp [List.dropWhile_cons, List.takeWhile_cons, hdw]
        · rw [scanDigits, if_neg hd, if_neg he] at h
          cases h

/-- A string the source accepts as a versioned build id begins with the
`b<digits>-` tag. -/
theorem versioned_implies_tag (l : List Char) (h : versionedChars l = true) :
    tagChars l = true := by
  match l with
  | [] => simp [versionedChars] at h
  | ch :: rest =>
      by_cases hb : ch = 'b'
      · subst hb
        rw [versionedChars, if_pos rfl] at h
        rw [tagChars, if_pos rfl]
        cases hs : scanDigits rest 0 with
        | none => rw [hs] at h; cases h
        | some pr =>
            obtain ⟨k, rem⟩ := pr
            rw [hs] at h
            simp only [Bool.and_eq_true, decide_eq_true_eq] at h
            obtain ⟨⟨hk, hrem⟩, hcanon⟩ := h
            obtain ⟨hdrop, hlen⟩ := scanDigits_spec rest 0 k rem hs
            rw [hdrop]
            simp only [Bool.and_eq_true, decide_eq_true_eq]
            exact ⟨by omega, trivial⟩
      · rw [versionedChars, if_neg hb] at h
        cases h

end LibForge

namespace LibForge

/-- C8 (amended): when both the package and the build id pass the
canonical-component check, a build id that does not begin with the
`b<digits>-` version tag makes `artifact_name` return `InvalidBuildId`.
(As originally stated the claim is false: the component checks run first,
so e.g. an uppercase build id yields `InvalidComponent` instead.) -/
theorem artifact_name_invalid_build_id
    (lib_name build_id : String) (k : PlatformKey) (a : ArchiveKind)
    (h1 : lib_name ≠ "") (h2 : is_canonical_component lib_name = true)
    (h3 : build_id ≠ "") (h4 : is_canonical_component build_id = true)
    (h5 : hasVersionTag build_id = false) :
    artifact_name lib_name build_id k a =
      .error (.InvalidBuildId build_id) := by
  have hv : is_versioned_build_id build_id = false := by
    unfold is_versioned_build_id
    cases hvv : versionedChars build_id.data with
    | false => rfl
    | true =>
        have htag := versioned_implies_tag _ hvv
        unfold hasVersionTag at h5
        rw [htag] at h5
        cases h5
  simp only [artifact_name, validate_component, validate_build_id]
  rw [if_neg (by simp [h1, h2]), if_neg (by simp [h3, h4])]
  rw [hv]
  rfl

/-- C8 (counterexample to the original claim): for the build id `B1-abc`,
which does not begin with the `b<digits>-` tag, `artifact_name` returns
`InvalidComponent` for the build_id component — not `InvalidBuildId`. -/
theorem artifact_name_component_check_first :
    hasVersionTag "B1-abc" = false ∧
      artifact_name "libname" "B1-abc" PlatformKey.LinuxX86_64 ArchiveKind.TarGz =
        .error (.InvalidComponent "build_id" "B1-abc") := by
  exact ⟨rfl, rfl⟩

/-- C8 witness: the amended theorem applied at `build_id = "xyz"`. -/
theorem artifact_name_invalid_build_id_witness :
    ("libname" : String) ≠ "" ∧ is_canonical_component "libname" = true ∧
      ("xyz" : String) ≠ "" ∧ is_canonical_component "xyz" = true ∧
      hasVersionTag "xyz" = false ∧
      artifact_name "libname" "xyz" PlatformKey.LinuxX86_64 ArchiveKind.TarGz =
        .error (.InvalidBuildId "xyz") :=
  ⟨by decide, by decide, by decide, by decide, by decide,
    artifact_name_invalid_build_id "libname" "xyz" PlatformKey.LinuxX86_64
      ArchiveKind.TarGz (by decide) (by decide) (by decide) (by decide)
      (by decide)⟩

/-- C5: the canonical JSON of every BuildInputs has one entry per schema
field name (the seven names, sorted), and an Absent field still appears
under its name with a `null` value rather than the key being omitted. -/
theorem canonical_json_explicit_absent (x : BuildInputs) (f : BuildInputField)
    (hf : f ∈ sortedFields x) (habs : f.value = .absent) :
    canonicalJsonValue x =
        .obj [("inputs", .arr ((sortedFields x).map fieldJson)),
              ("version", .str "b1")] ∧
      (sortedFields x).map (fun g => g.name) =
        ["binding.metadata", "cargo.lock", "cargo.toml", "libforge.yaml",
         "manifest.schema_version", "rust.target_triple", "uniffi.udl"] ∧
      fieldJson f =
        .obj [("affects_abi", .bool f.affects_abi), ("name", .str f.name),
              ("value", Json.null)] := by
  refine ⟨rfl, rfl, ?_⟩
  obtain ⟨n, v, ab⟩ := f
  have hv : v = .absent := habs
  subst hv
  rfl

/-- C5 witness: with the sample inputs minus their UDL, the `uniffi.udl`
field is Absent yet appears in the canonical JSON with a null value. -/
theorem canonical_json_explicit_absent_witness :
    (⟨"uniffi.udl", BuildInputValue.absent, true⟩ : BuildInputField) ∈
        sortedFields { sample_inputs with uniffi := none } ∧
      fieldJson ⟨"uniffi.udl", BuildInputValue.absent, true⟩ =
        .obj [("affects_abi", .bool true), ("name", .str "uniffi.udl"),
              ("value", Json.null)] :=
  ⟨by decide,
    (canonical_json_explicit_absent { sample_inputs with uniffi := none }
        ⟨"uniffi.udl", BuildInputValue.absent, true⟩ (by decide) rfl).2.2⟩

end LibForge

namespace LibForge

/-- A prefix of a list is a prefix of any extension of it. -/
theorem isPrefOf_append (n : List Char) :
    ∀ l m : List Char, isPrefOf n l = true → isPrefOf n (l ++ m) = true := by
  induction n with
  | nil => intro l m h; rfl
  | cons a as ih =>
      intro l m h
      cases l with
      | nil => simp [isPrefOf] at h
      | cons b bs =>
          simp only [isPrefOf, Bool.and_eq_true, decide_eq_true_eq] at h
          simp only [List.cons_append, isPrefOf, Bool.and_eq_true,
            decide_eq_true_eq]
          exact ⟨h.1, ih bs m h.2⟩

/-- Containment in the right part survives prepending. -/
theorem containsSub_append_right (n a b : List Char)
    (h : containsSub n b = true) : containsSub n (a ++ b) = true := by
  induction a with
  | nil => exact h
  | cons c cs ih =>
      simp only [List.cons_append, containsSub, Bool.or_eq_true]
      exact Or.inr ih

/-- Containment in the left part survives appending. -/
theorem containsSub_append_left (n a b : List Char)
    (h : containsSub n a = true) : containsSub n (a ++ b) = true := by
  induction a with
  | nil =>
      cases n with
      | nil =>
          cases b with
          | nil => rfl
          | cons c cs => simp [containsSub, isPrefOf]
      | cons x xs => simp [containsSub, isPrefOf] at h
  | cons c cs ih =>
      simp only [containsSub, Bool.or_eq_true] at h
      simp only [List.cons_append, containsSub, Bool.or_eq_true]
      cases h with
      | inl hp => exact Or.inl (isPrefOf_append _ _ _ hp)
      | inr hc => exact Or.inr (ih hc)

/-- `strContains` in the right half of an append. -/
theorem strContains_append_right (a b n : String)
    (h : strContains b n = true) : strContains (a ++ b) n = true :=
  containsSub_append_right n.data a.data b.data h

/-- `strContains` in the left half of an append. -/
theorem strContains_append_left (a b n : String)
    (h : strContains a n = true) : strContains (a ++ b) n = true :=
  containsSub_append_left n.data a.data b.data h


end LibForge

namespace LibForge

/-- C4 (counterexample to the original claim): serializing a manifest whose
signing field is absent still emits a `"signing"` key — in both the compact
and the indented form. -/
theorem serialize_manifest_emits_signing_key :
    sample_manifest.signing = none ∧
      strContains (serialize_manifest sample_manifest) "\"signing\"" = true ∧
      strContains (serialize_manifest_pretty sample_manifest) "\"signing\"" = true := by
  refine ⟨rfl, by decide, by decide⟩

/-- C4 (amended): for every manifest whose signing field is absent, the
compact serialization emits the member `"signing":null` and the indented
serialization emits `"signing": null` — the key is present with a null
value, not omitted (the serde derive carries no `skip_serializing_if`). -/
theorem serialize_manifest_signing_null (m : Manifest) (h : m.signing = none) :
    strContains (serialize_manifest m) "\"signing\":null" = true ∧
      strContains (serialize_manifest_pretty m) "\"signing\": null" = true := by
  constructor
  · simp only [serialize_manifest, Json.render, manifestJsonValue, h,
      Json.renderFuel, List.map, joinSep]
    apply strContains_append_left
    apply strContains_append_right
    apply strContains_append_right
    apply strContains_append_right
    apply strContains_append_right
    apply strContains_append_right
    apply strContains_append_right
    apply strContains_append_right
    decide
  · simp only [serialize_manifest_pretty, manifestJsonValue, h,
      Json.renderPrettyFuel, List.map, joinSep]
    apply strContains_append_left
    apply strContains_append_left
    apply strContains_append_left
    apply strContains_append_right
    apply strContains_append_right
    apply strContains_append_right
    apply strContains_append_right
    apply strContains_append_right
    apply strContains_append_right
    apply strContains_append_right
    decide

/-- C4 witness: the amended theorem applied to the sample manifest. -/
theorem serialize_manifest_signing_null_witness :
    sample_manifest.signing = none ∧
      strContains (serialize_manifest sample_manifest) "\"signing\":null" = true ∧
      strContains (serialize_manifest_pretty sample_manifest) "\"signing\": null" = true :=
  ⟨rfl, (serialize_manifest_signing_null sample_manifest rfl).1,
    (serialize_manifest_signing_null sample_manifest rfl).2⟩

end LibForge

namespace LibForge

/-- Whitespace-equivalent strings have equal trims. -/
theorem wsEquivStr_trim (a b : String) (h : wsEquivStr a b = true) :
    rustTrim a = rustTrim b := of_decide_eq_true h

/-- Whitespace-equivalent string lists have equal trimmed images. -/
theorem wsEquivList_trim (as : List String) :
    ∀ bs, wsEquivList as bs = true → as.map rustTrim = bs.map rustTrim := by
  induction as with
  | nil =>
      intro bs h
      cases bs with
      | nil => rfl
      | cons b bs2 => exact Bool.noConfusion h
  | cons a as2 ih =>
      intro bs h
      cases bs with
      | nil => exact Bool.noConfusion h
      | cons b bs2 =>
          simp only [wsEquivList, Bool.and_eq_true] at h
          simp only [List.map_cons, wsEquivStr_trim a b h.1, ih bs2 h.2]

/-- Whitespace-equivalent binding metadata have equal canonical strings. -/
theorem wsEquivBinding_canonical (m n : BindingMetadata)
    (h : wsEquivBinding m n = true) :
    m.canonical_string = n.canonical_string := by
  cases m <;> cases n <;> try exact Bool.noConfusion h
  case swift.swift a b =>
      simp only [wsEquivBinding, Bool.and_eq_true] at h
      simp only [BindingMetadata.canonical_string, SwiftBinding.canonical_string,
        wsEquivStr_trim _ _ h.1, wsEquivStr_trim _ _ h.2]
  case kotlin.kotlin a b =>
      simp only [wsEquivBinding, Bool.and_eq_true] at h
      obtain ⟨⟨hm, hj⟩, hn⟩ := h
      simp only [BindingMetadata.canonical_string, KotlinBinding.canonical_string,
        of_decide_eq_true hm, wsEquivStr_trim _ _ hj, wsEquivList_trim _ _ hn]
  case python.python a b =>
      simp only [wsEquivBinding, Bool.and_eq_true] at h
      simp only [BindingMetadata.canonical_string, PythonBinding.canonical_string,
        wsEquivStr_trim _ _ h.1, wsEquivStr_trim _ _ h.2]
  case dart.dart a b =>
      simp only [wsEquivBinding, Bool.and_eq_true] at h
      simp only [BindingMetadata.canonical_string, DartBinding.canonical_string,
        wsEquivStr_trim _ _ h.1, wsEquivStr_trim _ _ h.2]

/-- Whitespace-equivalent binding lists have equal canonical-string images. -/
theorem wsEquivBindings_canonical (l1 : List BindingMetadata) :
    ∀ l2, wsEquivBindings l1 l2 = true →
      l1.map BindingMetadata.canonical_string =
        l2.map BindingMetadata.canonical_string := by
  induction l1 with
  | nil =>
      intro l2 h
      cases l2 with
      | nil => rfl
      | cons b bs => exact Bool.noConfusion h
  | cons a as2 ih =>
      intro l2 h
      cases l2 with
      | nil => exact Bool.noConfusion h
      | cons b bs =>
          simp only [wsEquivBindings, Bool.and_eq_true] at h
          simp only [List.map_cons, wsEquivBinding_canonical a b h.1, ih bs h.2]

/-- C10: binding canonical strings trim their fields — two
BindingMetadataSets whose corresponding string fields (including each
Kotlin ndk_abis entry) differ only by leading/trailing whitespace have
identical canonical strings, and two BuildInputs that differ only in such
whitespace produce the same build id. -/
theorem binding_canonical_string_trims (s t : BindingMetadataSet)
    (h : wsEquivBindings s.bindings t.bindings = true) :
    s.canonical_string = t.canonical_string ∧
      ∀ x : BuildInputs,
        hash_build_inputs { x with binding_metadata := s } =
          hash_build_inputs { x with binding_metadata := t } := by
  have hcs : s.canonical_string = t.canonical_string := by
    unfold BindingMetadataSet.canonical_string
    rw [wsEquivBindings_canonical s.bindings t.bindings h]
  refine ⟨hcs, fun x => ?_⟩
  have hfields : BuildInputs.fields { x with binding_metadata := s } =
      BuildInputs.fields { x with binding_metadata := t } := by
    simp only [BuildInputs.fields]
    rw [hcs]
  have hjson : canonical_json { x with binding_metadata := s } =
      canonical_json { x with binding_metadata := t } := by
    unfold canonical_json canonicalJsonValue sortedFields
    rw [hfields]
  unfold hash_build_inputs
  rw [hjson]

/-- C10 witness: two one-element Swift binding sets differing only in
padding spaces canonicalize identically and hash identically. -/
theorem binding_canonical_string_trims_witness :
    wsEquivBindings [BindingMetadata.swift ⟨" 5.9", "13.0 "⟩]
        [BindingMetadata.swift ⟨"5.9", " 13.0"⟩] = true ∧
      BindingMetadataSet.canonical_string ⟨[BindingMetadata.swift ⟨" 5.9", "13.0 "⟩]⟩ =
        BindingMetadataSet.canonical_string ⟨[BindingMetadata.swift ⟨"5.9", " 13.0"⟩]⟩ ∧
      hash_build_inputs { sample_inputs with
          binding_metadata := ⟨[BindingMetadata.swift ⟨" 5.9", "13.0 "⟩]⟩ } =
        hash_build_inputs { sample_inputs with
          binding_metadata := ⟨[BindingMetadata.swift ⟨"5.9", " 13.0"⟩]⟩ } :=
  ⟨by decide,
    (binding_canonical_string_trims ⟨[BindingMetadata.swift ⟨" 5.9", "13.0 "⟩]⟩
        ⟨[BindingMetadata.swift ⟨"5.9", " 13.0"⟩]⟩ (by decide)).1,
    (binding_canonical_string_trims ⟨[BindingMetadata.swift ⟨" 5.9", "13.0 "⟩]⟩
        ⟨[BindingMetadata.swift ⟨"5.9", " 13.0"⟩]⟩ (by decide)).2 sample_inputs⟩

end LibForge

namespace LibForge

/-- The target loop of `validate` passes when every target name parses and
every target build id is non-blank. -/
theorem checkTargets_none (l : List Platform)
    (h : ∀ p ∈ l, (∃ k, PlatformKey.from_str p.name = .ok k) ∧
      rustTrim p.build_id ≠ "") :
    checkTargets l = none := by
  induction l with
  | nil => rfl
  | cons p rest ih =>
      obtain ⟨⟨k, hk⟩, hb⟩ := h p (List.mem_cons_self p rest)
      unfold checkTargets
      simp only [hk]
      rw [if_neg hb]
      exact ih fun q hq => h q (List.mem_cons_of_mem p hq)

/-- C7: for every manifest whose target names all parse as platform keys
with non-blank build ids and whose default parses as a platform key, if the
default platform equals none of the target names then `validate` returns
`InvalidDefaultPlatform`. -/
theorem validate_invalid_default_platform (m : Manifest)
    (htargets : ∀ p ∈ m.platforms.targets,
      (∃ k, PlatformKey.from_str p.name = .ok k) ∧ rustTrim p.build_id ≠ "")
    (hdefault : ∃ k, PlatformKey.from_str m.platforms.default = .ok k)
    (hmem : m.platforms.default ∉ m.platforms.targets.map Platform.name) :
    validate m = .error (.InvalidDefaultPlatform m.platforms.default) := by
  obtain ⟨k0, hk0⟩ := hdefault
  unfold validate
  simp only [checkTargets_none m.platforms.targets htargets, hk0]
  rw [if_pos hmem]

/-- C7 witness: the sample manifest with its default platform replaced by
`ios-arm64`, which is absent from its (valid) targets. -/
theorem validate_invalid_default_platform_witness :
    validate { sample_manifest with
        platforms := ⟨"ios-arm64", sample_manifest.platforms.targets⟩ } =
      .error (.InvalidDefaultPlatform "ios-arm64") :=
  validate_invalid_default_platform
    { sample_manifest with
        platforms := ⟨"ios-arm64", sample_manifest.platforms.targets⟩ }
    (by
      intro p hp
      have htgts : sample_manifest.platforms.targets =
          [⟨"linux-x86_64", "b1-demo", ["x86_64-unknown-linux-gnu"],
            [], [], none⟩] := rfl
      rw [htgts] at hp
      have hp2 : p = ⟨"linux-x86_64", "b1-demo", ["x86_64-unknown-linux-gnu"],
          [], [], none⟩ := by simpa using hp
      subst hp2
      exact ⟨⟨PlatformKey.LinuxX86_64, rfl⟩, by decide⟩)
    ⟨PlatformKey.IosArm64, rfl⟩
    (by decide)

/-- The asset loop of `validate_request` passes when every asset exists and
every name obeys the build-id-in-name rule. -/
theorem checkAssets_ok (fs : List String) (bid : String) (l : List ReleaseAsset)
    (hex : ∀ a ∈ l, a.path ∈ fs)
    (hok : ∀ a ∈ l, requires_build_id_in_name a.name = true →
      strContains a.name bid = true) :
    checkAssets fs bid l = .ok () := by
  induction l with
  | nil => rfl
  | cons a rest ih =>
      have h2 : (requires_build_id_in_name a.name && !strContains a.name bid)
          = false := by
        cases hreq : requires_build_id_in_name a.name with
        | false => rfl
        | true => rw [hok a (List.mem_cons_self a rest) hreq]; rfl
      unfold checkAssets
      rw [if_neg (not_not_intro (hex a (List.mem_cons_self a rest))), h2]
      simp only [Bool.false_eq_true, if_false]
      exact ih (fun q hq => hex q (List.mem_cons_of_mem a hq))
        (fun q hq => hok q (List.mem_cons_of_mem a hq))

/-- The asset loop of `validate_request` fails with `InvalidRequest` when all
assets exist but some name violates the build-id-in-name rule. -/
theorem checkAssets_err (fs : List String) (bid : String) (l : List ReleaseAsset)
    (hex : ∀ a ∈ l, a.path ∈ fs)
    (hbad : ∃ a ∈ l, requires_build_id_in_name a.name = true ∧
      strContains a.name bid = false) :
    ∃ msg, checkAssets fs bid l = .error (.InvalidRequest msg) := by
  induction l with
  | nil =>
      obtain ⟨a, ha, _⟩ := hbad
      exact absurd ha (List.not_mem_nil a)
  | cons a rest ih =>
      cases hcond : (requires_build_id_in_name a.name && !strContains a.name bid) with
      | true =>
          refine ⟨"asset '" ++ a.name ++ "' does not include build_id '" ++
            bid ++ "'", ?_⟩
          unfold checkAssets
          rw [if_neg (not_not_intro (hex a (List.mem_cons_self a rest))), hcond,
            if_pos rfl]
      | false =>
          obtain ⟨a2, ha2, hreq2, hcon2⟩ := hbad
          cases List.mem_cons.mp ha2 with
          | inl heq =>
              subst heq
              rw [hreq2, hcon2] at hcond
              simp at hcond
          | inr hmem2 =>
              obtain ⟨msg, hmsg⟩ := ih
                (fun q hq => hex q (List.mem_cons_of_mem a hq))
                ⟨a2, hmem2, hreq2, hcon2⟩
              refine ⟨msg, ?_⟩
              unfold checkAssets
              rw [if_neg (not_not_intro (hex a (List.mem_cons_self a rest))), hcond]
              simp only [Bool.false_eq_true, if_false]
              exact hmsg

/-- C6: for a publish request with non-blank repository, tag and build id
whose manifest and asset files all exist, `publish_release` returns
`InvalidRequest` whenever some asset name needs the build id but lacks it,
and delegates the request to the backend publisher whenever every asset name
satisfies the rule. -/
theorem publish_release_asset_name_rule
    (publisher : PublishRequest → Except PublishError PublishOutcome)
    (fs : List String) (request : PublishRequest)
    (hrepo : rustTrim request.repository ≠ "")
    (htag : rustTrim request.tag ≠ "")
    (hbid : rustTrim request.build_id ≠ "")
    (hman : request.manifest_path ∈ fs)
    (hex : ∀ a ∈ request.assets, a.path ∈ fs) :
    ((∃ a ∈ request.assets, requires_build_id_in_name a.name = true ∧
        strContains a.name request.build_id = false) →
      ∃ msg, publish_release publisher fs request = .error (.InvalidRequest msg)) ∧
    ((∀ a ∈ request.assets, requires_build_id_in_name a.name = true →
        strContains a.name request.build_id = true) →
      publish_release publisher fs request = publisher request) := by
  have hval : validate_request fs request =
      checkAssets fs request.build_id request.assets := by
    unfold validate_request
    rw [if_neg hrepo, if_neg htag, if_neg hbid, if_neg (not_not_intro hman)]
  constructor
  · intro hbad
    obtain ⟨msg, hmsg⟩ := checkAssets_err fs request.build_id request.assets hex hbad
    refine ⟨msg, ?_⟩
    unfold publish_release
    rw [hval, hmsg]
  · intro hok
    unfold publish_release
    rw [hval, checkAssets_ok fs request.build_id request.assets hex hok]

/-- C6 witness: a request whose single archive asset carries the build id in
its name passes validation and reaches the backend publisher. -/
theorem publish_release_asset_name_rule_witness :
    rustTrim "owner/repo" ≠ "" ∧ rustTrim "v1.0" ≠ "" ∧ rustTrim "b1-x" ≠ "" ∧
      ("m.json" : String) ∈ ["m.json", "pkg-b1-x.tar.gz"] ∧
      publish_release (fun _ => .ok ⟨[], [], none⟩) ["m.json", "pkg-b1-x.tar.gz"]
          ⟨"owner/repo", "v1.0", "rel", "", "b1-x", "m.json",
            [⟨"pkg-b1-x.tar.gz", "pkg-b1-x.tar.gz", "application/gzip"⟩]⟩ =
        .ok ⟨[], [], none⟩ :=
  ⟨by decide, by decide, by decide, by decide,
    (publish_release_asset_name_rule (fun _ => .ok ⟨[], [], none⟩)
      ["m.json", "pkg-b1-x.tar.gz"]
      ⟨"owner/repo", "v1.0", "rel", "", "b1-x", "m.json",
        [⟨"pkg-b1-x.tar.gz", "pkg-b1-x.tar.gz", "application/gzip"⟩]⟩
      (by decide) (by decide) (by decide) (by decide)
      (by decide)).2 (by decide)⟩

end LibForge
